import Mathlib

/-!
Shallow embedding of `src/index.ts` of the bot-framework repository.

The file is a small conversational-intent pipeline built around a `ChatBot`
class.  We embed its data model and operations as executable Lean
definitions:
* JS objects used as string-keyed bags (`details`, the `User` record passed
  to `createEmptyUser`) become ordered association lists, preserving JS
  property-insertion order;
* lodash `_.defaults` becomes a fold that adds a source key only when the
  destination does not already have it;
* JS `Array.prototype`/lodash `_.flatten`, `_.compact`, `_.orderBy` become
  `List.flatten`, `List.reduceOption`, `List.mergeSort` (lodash `orderBy`
  is a stable sort, as is `mergeSort`);
* numbers (classifier confidence values) become `ℚ`;
* nullable values become `Option`;
* the external classifier capability (`classifier.getClassifications`) is a
  function parameter `String → ClassifierResult`, and the external
  `GenerateClassifier` (from the absent `./classifier` module) is a function
  parameter of the constructor/retrain operations.
Promises carry no concurrency that the claims depend on (extraction results
are joined before reduction), so `Promise<T>` is embedded as `T` with
`null` results as `Option`.
-/

namespace BotFramework

/-- A JSON-ish value stored in an intent's `details` bag. -/
inductive DVal where
  | num (q : ℚ)
  | str (s : String)
  | strList (l : List String)
  deriving DecidableEq, Repr

/-- A JS object with values of type `β`, used as a string-keyed bag, in
property-insertion order. -/
abbrev JSRecord (β : Type) := List (String × β)

/-- A JS object used as a `details` bag. -/
abbrev Details := JSRecord DVal

/-- `k in o` for a JS object. -/
def objHas {β : Type} (o : JSRecord β) (k : String) : Bool :=
  o.any (fun kv => kv.1 == k)

/-- `o[k]` for a JS object (first entry with the key wins). -/
def objLookup {β : Type} (o : JSRecord β) (k : String) : Option β :=
  (o.find? (fun kv => kv.1 == k)).map (fun kv => kv.2)

/-- JS property assignment `o[k] = v`: overwrite in place when the key
exists, otherwise append the new property. -/
def objSet {β : Type} (o : JSRecord β) (k : String) (v : β) : JSRecord β :=
  if objHas o k then o.map (fun kv => if kv.1 == k then (kv.1, v) else kv)
  else o ++ [(k, v)]

/-- lodash `_.defaults(dst, src)`: copy into `dst` only the `src` keys that
`dst` does not already define (and, for duplicate keys inside `src`, only
the first occurrence). -/
def lodashDefaults {β : Type} (dst src : JSRecord β) : JSRecord β :=
  src.foldl (fun acc kv => if objHas acc kv.1 then acc else acc ++ [kv]) dst

/-- lodash `_.defaults.apply(this, sources)` as used by `defaultReducer` on
the intents' `details` objects: an `undefined` first argument is promoted to
an empty object, `undefined` later sources are skipped. -/
def lodashDefaultsAll : List (Option Details) → Details
  | [] => []
  | d0 :: rest =>
    rest.foldl
      (fun acc s =>
        match s with
        | none => acc
        | some src => lodashDefaults acc src)
      (d0.getD [])

/-- `interface Intent` (`src/index.ts:11-15`).  The TS types say `string`,
but the code assigns `null` to `action`/`topic` (`createEmptyIntent`, the
reducer's sentinel), so both are `Option String`; `details?` is optional. -/
structure Intent where
  action : Option String
  topic : Option String
  details : Option Details
  deriving DecidableEq, Repr

/-- `interface User` (`src/index.ts:17-21`): `conversation?` is optional,
`state` is `any` (a string in every appearance in this file). -/
structure User where
  conversation : Option (List String)
  state : String
  intent : Intent
  deriving DecidableEq, Repr

/-! ### createEmptyIntent / createEmptyUser

`createEmptyUser` layers the caller's `defaults` with lodash `_.defaults`
over a fresh base record.  To express that faithfully (per-key presence on
arbitrary caller objects) the user record is embedded here as a JS object. -/

/-- A value stored in the JS-object view of a user record. -/
inductive JVal where
  | str (s : String)
  | strList (l : List String)
  | intentVal (i : Intent)
  deriving DecidableEq, Repr

/-- A user record as a raw JS object, in property-insertion order. -/
abbrev JSObj := JSRecord JVal

/-- `createEmptyIntent` (`src/index.ts:80-86`): `{action: null, details: {},
topic: null}`. -/
def createEmptyIntent : Intent :=
  { action := none, topic := none, details := some [] }

/-- The literal `anEmptyUser` built inside `createEmptyUser`
(`src/index.ts:89-93`): `{conversation: [], intent: createEmptyIntent(),
state: 'none'}`. -/
def anEmptyUser : JSObj :=
  [ ("conversation", JVal.strList []),
    ("intent", JVal.intentVal createEmptyIntent),
    ("state", JVal.str "none") ]

/-- `createEmptyUser(defaults)` (`src/index.ts:88-95`): returns
`_.defaults(anEmptyUser, defaults)`. -/
def createEmptyUser (defaults : JSObj) : JSObj :=
  lodashDefaults anEmptyUser defaults

/-! ### Classification and the built-in extractor -/

/-- One entry of `classifier.getClassifications(text)`: a label and a
confidence value. -/
structure ClassifierResult where
  label : String
  value : ℚ
  deriving DecidableEq, Repr

/-- The external classifier capability for one (topic, label) pair: the code
only reads `getClassifications(text)[0]`, so the capability is the function
giving that best result. -/
abbrev Classifier := String → ClassifierResult

/-- `Classifiers`: topic → label → classifier, as nested association lists
in JS-object key order. -/
abbrev Classifiers := List (String × List (String × Classifier))

/-- `interface Classification` (`src/index.ts:120-124`). -/
structure Classification where
  label : String
  topic : String
  value : ℚ
  deriving DecidableEq, Repr

/-- Replace the first occurrence of `c` in a character list by `r`. -/
def replaceFirstChar (c r : Char) : List Char → List Char
  | [] => []
  | x :: xs => if x = c then r :: xs else x :: replaceFirstChar c r xs

/-- JS `label.replace('-', ' ')` (`src/index.ts:132`): with a *string*
pattern, `String.prototype.replace` substitutes only the **first**
occurrence. -/
def jsReplaceHyphen (s : String) : String :=
  ⟨replaceFirstChar '-' ' ' s.data⟩

/-- `checkUsingClassifier` (`src/index.ts:126-136`): query one classifier;
drop the sentinel negative class `'false'`, otherwise build a
`Classification` with the label's first `'-'` replaced by a space. -/
def checkUsingClassifier (text : String) (c : Classifier) (label topic : String) :
    Option Classification :=
  let result := c text
  if result.label = "false" then none
  else some { label := jsReplaceHyphen label, topic := topic, value := result.value }

/-- `baseBotTextNLP` steps 1-2 (`src/index.ts:139-145`): run every
classifier of every topic, `_.compact` per topic, `_.flatten` then
`_.compact` again (the second compact is the identity here since each
per-topic list was already compacted). -/
def collectClassifications (bank : Classifiers) (text : String) : List Classification :=
  ((bank.map
      (fun tc => (tc.2.map (fun lc => checkUsingClassifier text lc.2 lc.1 tc.1)).reduceOption)
    ).flatten)

/-- `baseBotTextNLP` confidence floor (`src/index.ts:148-150`): when the
classifier family is `natural.LogisticRegressionClassifier`, keep only
`value > 0.6`. -/
def applyThreshold (isLogisticRegression : Bool) (l : List Classification) :
    List Classification :=
  if isLogisticRegression then l.filter (fun r => (6 : ℚ)/10 < r.value) else l

/-- The `compacted` list of `baseBotTextNLP` after the optional threshold
filter (`src/index.ts:145-150`). -/
def compactedClassifications (isLogisticRegression : Bool) (bank : Classifiers)
    (text : String) : List Classification :=
  applyThreshold isLogisticRegression (collectClassifications bank text)

/-- The comparison used by `_.orderBy(compacted, ['value'], 'desc')`:
descending by `value`, stable on ties. -/
def clsGE (a b : Classification) : Bool :=
  decide (b.value ≤ a.value)

/-- The `sorted` list of `baseBotTextNLP` (`src/index.ts:155`): stable sort
descending by confidence. -/
def sortedClassifications (isLogisticRegression : Bool) (bank : Classifiers)
    (text : String) : List Classification :=
  (compactedClassifications isLogisticRegression bank text).mergeSort clsGE

/-- lodash `_.startCase` as used on classifier labels (`src/index.ts:158`):
on the ASCII labels appearing here it splits the string into words at
non-alphanumeric characters, capitalizes each word, and joins the words
with single spaces. -/
def startCase (s : String) : String :=
  String.intercalate " "
    (((s.data.splitOnP (fun ch => !ch.isAlphanum)).map
        (fun w => String.capitalize ⟨w⟩)).filter (fun w => w != ""))

/-- The `locations` list of `baseBotTextNLP` (`src/index.ts:158`): the
title-cased labels of the sorted classifications whose topic is
`'locations'` (map to `null` otherwise, then `_.compact`). -/
def locationsOf (isLogisticRegression : Bool) (bank : Classifiers) (text : String) :
    List String :=
  ((sortedClassifications isLogisticRegression bank text).map
      (fun i => if i.topic = "locations" then some (startCase i.label) else none)
    ).reduceOption

/-- The intent built from one sorted classification
(`src/index.ts:160-177`), including the `switch` that re-assigns
`details.locations` (to the same list) when the topic is `'locations'`. -/
def classificationToIntent (locations : List String) (i : Classification) : Intent :=
  let baseIntent : Intent :=
    { action := some i.label,
      topic := some i.topic,
      details := some
        [ ("confidence", DVal.num i.value),
          ("locations", DVal.strList locations) ] }
  if i.topic = "locations" then
    { baseIntent with
      details := some (objSet (baseIntent.details.getD []) "locations" (DVal.strList locations)) }
  else baseIntent

/-- `baseBotTextNLP` (`src/index.ts:138-180`), with the classifier family
flag `classifier === natural.LogisticRegressionClassifier` as an explicit
parameter.  Returns `null` when no classification survives, otherwise the
sorted intents.  The produced JS array holds no `null` entries, hence the
`some` wrapping into the pipeline's nullable-element array type. -/
def baseBotTextNLP (isLogisticRegression : Bool) (bank : Classifiers) (text : String) :
    Option (List (Option Intent)) :=
  let compacted := compactedClassifications isLogisticRegression bank text
  if compacted.length = 0 then none
  else
    some ((sortedClassifications isLogisticRegression bank text).map
      (fun i => some (classificationToIntent (locationsOf isLogisticRegression bank text) i)))

/-! ### Reducer -/

/-- The sentinel `unknownIntent` of `defaultReducer` (`src/index.ts:187`):
`{action: 'none', topic: null}` — note that `details` is absent. -/
def unknownIntent : Intent :=
  { action := some "none", topic := none, details := none }

/-- `defaultReducer` (`src/index.ts:182-196`): `_.compact` the candidate
list; on an empty result return the sentinel; otherwise merge every
candidate's `details` with `_.defaults` (winner first) and return the first
candidate carrying the merged details. -/
def defaultReducer (intents : List (Option Intent)) : Intent :=
  match intents.reduceOption with
  | [] => unknownIntent
  | firstIntent :: rest =>
    let mergedDetails :=
      lodashDefaultsAll ((firstIntent :: rest).map (fun i => i.details))
    { firstIntent with details := some mergedDetails }

/-! ### ChatBot and processText -/

/-- `IntentFunction` results as the pipeline sees them: `null`, or a JS
array whose elements may in turn be `null` intents (both are dropped by the
`_.flatten`/`_.compact` steps of `processText`). -/
abbrev IntentFunction := String → User → Option (List (Option Intent))

/-- `SkillFunction`: returns `null` to decline, or a non-null result. -/
abbrev SkillFunction := User → Option User

/-- `ReducerFunction`. -/
abbrev ReducerFunction := List (Option Intent) → User → Intent

/-- The `ChatBot` class state (`src/index.ts:37-43`). -/
structure ChatBot where
  classifiers : Classifiers
  intents : List IntentFunction
  skills : List SkillFunction
  reducer : ReducerFunction
  debugOn : Bool

/-- `defaultClassifierDirectories` (`src/index.ts:35`); the literal embeds
the runtime `__dirname`. -/
def defaultClassifierDirectories : List String :=
  ["__dirname/../nlp/phrases"]

/-- `retrainClassifiers` (`src/index.ts:75-78`): rebuild the classifier bank
from the given files plus the default directories and assign it to
`this.classifiers`.  The external `GenerateClassifier` is the parameter
`generateClassifier`. -/
def retrainClassifiers (generateClassifier : List String → Classifiers)
    (bot : ChatBot) (classifierFiles : List String) : ChatBot :=
  { bot with classifiers := generateClassifier (classifierFiles ++ defaultClassifierDirectories) }

/-- `unshiftIntent` (`src/index.ts:55-58`): prepend. -/
def unshiftIntent (bot : ChatBot) (newIntent : IntentFunction) : ChatBot :=
  { bot with intents := [newIntent] ++ bot.intents }

/-- `unshiftSkill` (`src/index.ts:60-63`): prepend. -/
def unshiftSkill (bot : ChatBot) (newSkill : SkillFunction) : ChatBot :=
  { bot with skills := [newSkill] ++ bot.skills }

/-- `processText` conversation bookkeeping (`src/index.ts:98-101`): create
the conversation array when absent, then append the text. -/
def updateConversation (user : User) (text : String) : User :=
  let user' := if user.conversation.isNone then { user with conversation := some [] } else user
  { user' with conversation := some (user'.conversation.getD [] ++ [text]) }

/-- `_.flatten` over the joined extractor results: a `null` extractor result
stays as a `null` element, an array is spliced. -/
def jsFlatten (results : List (Option (List (Option Intent)))) : List (Option Intent) :=
  (results.map
      (fun r =>
        match r with
        | none => [none]
        | some l => l)
    ).flatten

/-- `_.compact`: drop the `null` elements. -/
def jsCompact (l : List (Option Intent)) : List (Option Intent) :=
  l.reduceOption.map some

/-- The skill-dispatch loop of `processText` (`src/index.ts:108-114`): walk
the skills in order with the current user; return at the first non-null
result.  The first component counts how many skills were invoked. -/
def runSkills : List SkillFunction → User → Nat × Option User
  | [], _ => (0, none)
  | s :: rest, u =>
    match s u with
    | some result => (1, some result)
    | none =>
      let p := runSkills rest u
      (p.1 + 1, p.2)

/-- The flattened and compacted candidate-intent list handed to the reducer
(`src/index.ts:102-105`). -/
def candidateIntents (bot : ChatBot) (user : User) (text : String) :
    List (Option Intent) :=
  jsCompact (jsFlatten (bot.intents.map (fun f => f text (updateConversation user text))))

/-- `processText` (`src/index.ts:97-117`): update the conversation, extract,
flatten/compact, reduce, assign `user.intent`, walk the skills (the walk's
return value is discarded by the final `.then(() => Promise.resolve(user))`),
and return the user. -/
def processText (bot : ChatBot) (user : User) (text : String) : User :=
  let u := updateConversation user text
  let decided := bot.reducer (candidateIntents bot user text) u
  let u' := { u with intent := decided }
  let _ := runSkills bot.skills u'
  u'

/-! ### Helpers used only to *state* properties -/

/-- The value the merge semantics ought to pick for a key the winner lacks:
the value of the earliest candidate whose `details` defines the key
(`undefined` details skipped, as lodash does). -/
def firstDefined {β : Type} (k : String) : List (Option (JSRecord β)) → Option β
  | [] => none
  | none :: rest => firstDefined k rest
  | some d :: rest =>
    match objLookup d k with
    | some v => some v
    | none => firstDefined k rest

/-- A skill that always declines (returns `null`); also the out-of-range
default when indexing a skill list. -/
def declineSkill : SkillFunction :=
  fun _ => none

/-- A concrete user record for witnesses. -/
def sampleUser : User :=
  { conversation := none, state := "none", intent := createEmptyIntent }

/-! ### General lemmas about the JS-object model -/

theorem objLookup_nil {β : Type} (k : String) :
    objLookup ([] : JSRecord β) k = none := rfl

theorem objLookup_cons {β : Type} (kv : String × β) (rest : JSRecord β) (k : String) :
    objLookup (kv :: rest) k = if kv.1 == k then some kv.2 else objLookup rest k := by
  cases h : kv.1 == k <;> simp [objLookup, List.find?, h]

theorem objHas_eq_isSome {β : Type} (o : JSRecord β) (k : String) :
    objHas o k = (objLookup o k).isSome := by
  induction o with
  | nil => rfl
  | cons kv rest ih =>
    cases h : kv.1 == k
    all_goals simp [objHas, objLookup_cons, h, List.any_cons]
    all_goals simpa [objHas] using ih

theorem objLookup_append {β : Type} (o₁ o₂ : JSRecord β) (k : String) :
    objLookup (o₁ ++ o₂) k =
      match objLookup o₁ k with
      | some v => some v
      | none => objLookup o₂ k := by
  induction o₁ with
  | nil => simp [objLookup]
  | cons kv rest ih =>
    cases h : kv.1 == k <;>
      simp [objLookup_cons, List.cons_append, h, ih]

theorem lodashDefaults_cons {β : Type} (dst : JSRecord β) (kv : String × β)
    (rest : JSRecord β) :
    lodashDefaults dst (kv :: rest) =
      lodashDefaults (if objHas dst kv.1 then dst else dst ++ [kv]) rest := rfl

theorem objLookup_lodashDefaults {β : Type} (dst src : JSRecord β) (k : String) :
    objLookup (lodashDefaults dst src) k =
      match objLookup dst k with
      | some v => some v
      | none => objLookup src k := by
  induction src generalizing dst with
  | nil =>
    show objLookup dst k = _
    cases h : objLookup dst k <;> simp [objLookup_nil]
  | cons kv rest ih =>
    rw [lodashDefaults_cons]
    by_cases hh : objHas dst kv.1 = true
    · rw [if_pos hh, ih]
      cases hdst : objLookup dst k with
      | some v => simp
      | none =>
        rw [objLookup_cons]
        cases hk : kv.1 == k with
        | true =>
          exfalso
          have : objHas dst k = (objLookup dst k).isSome := objHas_eq_isSome dst k
          rw [hdst] at this
          have hk' : kv.1 = k := by simpa using hk
          rw [hk'] at hh
          rw [hh] at this
          simp at this
        | false => simp
    · rw [if_neg hh, ih]
      cases hdst : objLookup dst k with
      | some v =>
        have happ : objLookup (dst ++ [kv]) k = some v := by
          rw [objLookup_append, hdst]
        rw [happ]
      | none =>
        have happ : objLookup (dst ++ [kv]) k =
            if kv.1 == k then some kv.2 else none := by
          rw [objLookup_append, hdst, objLookup_cons]
          cases hk : kv.1 == k <;> simp [objLookup]
        rw [happ, objLookup_cons]
        cases hk : kv.1 == k <;> simp

/-! ### C1 — createEmptyUser and caller defaults -/

/-- C1 counterexample: `createEmptyUser({state:'active'})` keeps
`state = 'none'`; the caller-supplied value does **not** override the base
record, because the code calls `_.defaults(anEmptyUser, defaults)` with the
fresh base record as the destination. -/
theorem c1_counterexample :
    objLookup (createEmptyUser [("state", JVal.str "active")]) "state"
        = some (JVal.str "none")
      ∧ some (JVal.str "none") ≠ some (JVal.str "active") := by
  refine ⟨rfl, ?_⟩
  decide

/-- C1 (amended): caller-supplied defaults fill only keys **absent** from
the base record `{conversation: [], intent: emptyIntent, state: 'none'}`.
Since the base record always defines `conversation`, `intent` and `state`,
those three keys keep their base values for every caller object — in
particular `createEmptyUser({state:'active'})` yields `state: 'none'` —
while any other key is taken from the caller's object. -/
theorem c1_amended (defaults : JSObj) :
    objLookup (createEmptyUser defaults) "conversation" = some (JVal.strList [])
      ∧ objLookup (createEmptyUser defaults) "intent"
          = some (JVal.intentVal createEmptyIntent)
      ∧ objLookup (createEmptyUser defaults) "state" = some (JVal.str "none")
      ∧ ∀ k : String, k ≠ "conversation" → k ≠ "intent" → k ≠ "state" →
          objLookup (createEmptyUser defaults) k = objLookup defaults k := by
  refine ⟨?_, ?_, ?_, ?_⟩
  · rw [createEmptyUser, objLookup_lodashDefaults]; rfl
  · rw [createEmptyUser, objLookup_lodashDefaults]; rfl
  · rw [createEmptyUser, objLookup_lodashDefaults]; rfl
  · intro k h1 h2 h3
    rw [createEmptyUser, objLookup_lodashDefaults]
    have hbase : objLookup anEmptyUser k = none := by
      simp [anEmptyUser, objLookup_cons, objLookup_nil,
        Ne.symm h1, Ne.symm h2, Ne.symm h3]
    rw [hbase]

/-- C1 amended-claim witness at `defaults = {state:'active', name:'x'}`:
`state` keeps the base value, the extra key `name` comes from the caller. -/
theorem c1_amended_witness :
    objLookup (createEmptyUser [("state", JVal.str "active"), ("name", JVal.str "x")])
        "state" = some (JVal.str "none")
      ∧ objLookup (createEmptyUser [("state", JVal.str "active"), ("name", JVal.str "x")])
          "name" = some (JVal.str "x") := by
  have h := c1_amended [("state", JVal.str "active"), ("name", JVal.str "x")]
  refine ⟨h.2.2.1, ?_⟩
  have hk := h.2.2.2 "name" (by decide) (by decide) (by decide)
  rw [hk]
  rfl

/-! ### C2 — skill dispatch order and short-circuit -/

/-- C2: the skill-dispatch walk of `processText` (embedded as `runSkills`,
which `processText` calls) invokes skills in registration order and stops at
the first skill whose result is non-null: if the skills before position `k`
all return `null` and skill `k` returns a non-null result, exactly the first
`k + 1` skills are invoked (the first component of `runSkills` counts the
invocations) and skill `k`'s result is the final one; if every skill
returns `null`, all `skills.length` skills are invoked exactly once. -/
theorem c2_skill_dispatch (skills : List SkillFunction) (u : User) :
    (∀ (k : Nat) (r : User), k < skills.length →
        (∀ j : Nat, j < k → skills.getD j declineSkill u = none) →
        skills.getD k declineSkill u = some r →
        runSkills skills u = (k + 1, some r))
      ∧ ((∀ j : Nat, j < skills.length → skills.getD j declineSkill u = none) →
          runSkills skills u = (skills.length, none)) := by
  induction skills with
  | nil =>
    refine ⟨?_, ?_⟩
    · intro k r hk
      exact absurd hk (Nat.not_lt_zero k)
    · intro _
      rfl
  | cons s rest ih =>
    refine ⟨?_, ?_⟩
    · intro k r hk hprev hres
      cases k with
      | zero =>
        have hs : s u = some r := by simpa using hres
        simp [runSkills, hs]
      | succ k' =>
        have hs : s u = none := by
          simpa using hprev 0 (Nat.succ_pos k')
        have hrest : runSkills rest u = (k' + 1, some r) := by
          refine ih.1 k' r (by simpa using hk) ?_ (by simpa using hres)
          intro j hj
          simpa using hprev (j + 1) (Nat.succ_lt_succ hj)
        simp [runSkills, hs, hrest]
    · intro hall
      have hs : s u = none := by
        simpa using hall 0 (Nat.succ_pos rest.length)
      have hrest : runSkills rest u = (rest.length, none) := by
        refine ih.2 ?_
        intro j hj
        simpa using hall (j + 1) (Nat.succ_lt_succ hj)
      simp [runSkills, hs, hrest]

/-- C2 witness: with skills `[decline, accept, decline]`, exactly the first
two are invoked and the second one's result is final. -/
theorem c2_witness :
    runSkills [declineSkill, fun u => some u, declineSkill] sampleUser
      = (2, some sampleUser) := by
  refine (c2_skill_dispatch [declineSkill, fun u => some u, declineSkill] sampleUser).1
    1 sampleUser (by norm_num) ?_ rfl
  intro j hj
  have hj0 : j = 0 := Nat.lt_one_iff.mp hj
  subst hj0
  rfl

/-! ### C3 — separator replacement in classifier labels -/

/-- A classifier bank whose single label contains two hyphens, for the C3
counterexample. -/
def hyphenBank : Classifiers :=
  [("greet", [("say-hello-now", fun _ => ⟨"say-hello-now", (9 : ℚ)/10⟩)])]

/-- C3 counterexample: the claim says a label with two or more hyphens
yields an action with no hyphens at all, but JS `label.replace('-', ' ')`
with a string pattern replaces only the first occurrence: the label
`'say-hello-now'` produces the action `'say hello-now'`, which still
contains a hyphen. -/
theorem c3_counterexample :
    baseBotTextNLP true hyphenBank "hi"
        = some [some
            { action := some "say hello-now",
              topic := some "greet",
              details := some
                [ ("confidence", DVal.num ((9 : ℚ)/10)),
                  ("locations", DVal.strList []) ] }]
      ∧ '-' ∈ "say hello-now".data := by
  refine ⟨?_, by decide⟩
  have hq : ((6 : ℚ)/10 < 9/10) := by norm_num
  simp +decide [baseBotTextNLP, compactedClassifications, collectClassifications,
    applyThreshold, sortedClassifications, locationsOf, classificationToIntent,
    checkUsingClassifier, hyphenBank, jsReplaceHyphen, replaceFirstChar, hq,
    decide_eq_true hq]

/-- `replaceFirstChar` at the first occurrence: with no occurrence of `c`
in `p`, the `c` between `p` and `q` is replaced and `q` is untouched. -/
theorem replaceFirstChar_append (c r : Char) (p q : List Char) (hp : c ∉ p) :
    replaceFirstChar c r (p ++ c :: q) = p ++ r :: q := by
  induction p with
  | nil => simp [replaceFirstChar]
  | cons x xs ihp =>
    have hx : x ≠ c := fun hx => hp (hx ▸ List.mem_cons_self x xs)
    have hxs : c ∉ xs := fun hm => hp (List.mem_cons_of_mem x hm)
    simp [replaceFirstChar, hx, ihp hxs]

/-- C3 (amended): the built-in extractor's label normalization replaces only
the **first** `'-'` of the classifier label by a space; hyphens after the
first are preserved.  Writing the label as `p ++ '-' :: q` with no hyphen in
`p`, the resulting classification's label is `p ++ ' ' :: q`. -/
theorem c3_amended (text : String) (c : Classifier) (label topic : String)
    (cls : Classification) (h : checkUsingClassifier text c label topic = some cls)
    (p q : List Char) (hp : '-' ∉ p) (hlabel : label.data = p ++ '-' :: q) :
    cls.label.data = p ++ ' ' :: q := by
  have hlab : cls.label = jsReplaceHyphen label := by
    by_cases hres : (c text).label = "false"
    · simp [checkUsingClassifier, hres] at h
    · simp [checkUsingClassifier, hres] at h
      rw [← h]
  rw [hlab, jsReplaceHyphen, hlabel]
  exact replaceFirstChar_append '-' ' ' p q hp

/-- C3 amended-claim witness at the label `'say-hello-now'`. -/
theorem c3_amended_witness :
    checkUsingClassifier "hi" (fun _ => ⟨"x", (1 : ℚ)⟩) "say-hello-now" "greet"
        = some ⟨"say hello-now", "greet", (1 : ℚ)⟩
      ∧ ("say hello-now").data = "say".data ++ ' ' :: "hello-now".data := by
  refine ⟨rfl, ?_⟩
  exact c3_amended "hi" (fun _ => ⟨"x", (1 : ℚ)⟩) "say-hello-now" "greet"
    ⟨"say hello-now", "greet", (1 : ℚ)⟩ rfl "say".data "hello-now".data
    (by decide) (by decide)

/-! ### C4 — logistic-regression confidence floor -/

/-- Both branches of the `switch` in the intent construction produce the
same `details` object: `{confidence, locations}` (the `locations` re-assign
writes the value the key already has). -/
theorem classificationToIntent_details (locations : List String) (c : Classification) :
    (classificationToIntent locations c).details
      = some [("confidence", DVal.num c.value), ("locations", DVal.strList locations)] := by
  by_cases h : c.topic = "locations" <;>
    simp +decide [classificationToIntent, h, objSet, objHas]

/-- C4: with the logistic-regression family active, the extractor's
`compacted` list keeps exactly the collected classifications with
`value > 0.6`; every produced intent carries a confidence strictly above
`0.6`; and when every collected classification has `value ≤ 0.6` the
extractor returns `null` rather than a low-confidence intent list. -/
theorem c4_confidence_floor (bank : Classifiers) (text : String) :
    (∀ c ∈ compactedClassifications true bank text,
        c ∈ collectClassifications bank text ∧ (6 : ℚ)/10 < c.value)
      ∧ (∀ intents, baseBotTextNLP true bank text = some intents →
          ∀ oi ∈ intents, ∃ i, oi = some i ∧ ∃ q, (6 : ℚ)/10 < q
            ∧ ∃ d, i.details = some d ∧ objLookup d "confidence" = some (DVal.num q))
      ∧ ((∀ c ∈ collectClassifications bank text, c.value ≤ (6 : ℚ)/10) →
          baseBotTextNLP true bank text = none) := by
  refine ⟨?_, ?_, ?_⟩
  · intro c hc
    have hc' : c ∈ (collectClassifications bank text).filter
        (fun r => decide ((6 : ℚ)/10 < r.value)) := by
      simpa [compactedClassifications, applyThreshold] using hc
    have := List.mem_filter.mp hc'
    exact ⟨this.1, by simpa using this.2⟩
  · intro intents hint oi hoi
    by_cases hlen : (compactedClassifications true bank text).length = 0
    · simp [baseBotTextNLP, hlen] at hint
    · rw [baseBotTextNLP] at hint
      simp only [if_neg hlen, Option.some_inj] at hint
      rw [← hint] at hoi
      obtain ⟨c, hc, hoc⟩ := List.mem_map.mp hoi
      refine ⟨classificationToIntent (locationsOf true bank text) c, hoc.symm,
        c.value, ?_, ?_⟩
      · have hcc : c ∈ compactedClassifications true bank text := by
          simpa [sortedClassifications] using hc
        have hc' : c ∈ (collectClassifications bank text).filter
            (fun r => decide ((6 : ℚ)/10 < r.value)) := by
          simpa [compactedClassifications, applyThreshold] using hcc
        simpa using (List.mem_filter.mp hc').2
      · refine ⟨[("confidence", DVal.num c.value),
          ("locations", DVal.strList (locationsOf true bank text))],
          classificationToIntent_details _ c, ?_⟩
        simp +decide [objLookup_cons]
  · intro hall
    have hempty : compactedClassifications true bank text = [] := by
      rw [compactedClassifications, applyThreshold, if_pos rfl,
        List.filter_eq_nil_iff]
      intro c hc
      simpa using hall c hc
    simp [baseBotTextNLP, hempty]

/-- A bank whose only classification scores `0.5 ≤ 0.6`, for the C4
witness: the extractor returns `null`. -/
def lowBank : Classifiers :=
  [("greet", [("hello", fun _ => ⟨"hello", (1 : ℚ)/2⟩)])]

/-- C4 witness: on `lowBank` every collected classification is at or below
the floor, and the extractor returns `null`. -/
theorem c4_witness : baseBotTextNLP true lowBank "hi" = none := by
  refine (c4_confidence_floor lowBank "hi").2.2 ?_
  intro c hc
  have hc' : c = ⟨"hello", "greet", (1 : ℚ)/2⟩ := by
    simpa [collectClassifications, checkUsingClassifier, lowBank,
      jsReplaceHyphen, replaceFirstChar] using hc
  rw [hc']
  norm_num

/-! ### C5 — default reducer picks the first candidate -/

/-- C5: whenever the compacted candidate list is non-empty, the default
reducer's decision is its first element (same `action`, same `topic`),
regardless of any confidence values in later candidates' details. -/
theorem c5_first_wins (intents : List (Option Intent)) (firstIntent : Intent)
    (rest : List Intent) (h : intents.reduceOption = firstIntent :: rest) :
    (defaultReducer intents).action = firstIntent.action
      ∧ (defaultReducer intents).topic = firstIntent.topic := by
  simp [defaultReducer, h]

/-- A low-confidence first candidate for the reducer witnesses. -/
def intentA : Intent :=
  { action := some "a", topic := some "t",
    details := some [("confidence", DVal.num ((1 : ℚ)/2))] }

/-- A higher-confidence later candidate with an extra details key. -/
def intentB : Intent :=
  { action := some "b", topic := some "u",
    details := some [("confidence", DVal.num ((9 : ℚ)/10)), ("extra", DVal.str "e")] }

/-- C5 witness: with candidates `[null, intentA, intentB]` where `intentB`
has the higher confidence, the reducer still picks `intentA`. -/
theorem c5_witness :
    (defaultReducer [none, some intentA, some intentB]).action = some "a"
      ∧ (defaultReducer [none, some intentA, some intentB]).topic = some "t" := by
  have h := c5_first_wins [none, some intentA, some intentB] intentA [intentB]
    (by simp [List.reduceOption])
  simpa [intentA] using h

/-! ### C6 — details merge semantics -/

theorem objLookup_lodashDefaultsAll (d0 : Option Details)
    (srcs : List (Option Details)) (k : String) :
    objLookup (lodashDefaultsAll (d0 :: srcs)) k =
      match objLookup (d0.getD []) k with
      | some v => some v
      | none => firstDefined k srcs := by
  show objLookup (srcs.foldl _ (d0.getD [])) k = _
  generalize d0.getD [] = acc
  induction srcs generalizing acc with
  | nil =>
    cases h : objLookup acc k <;> simp [firstDefined, h]
  | cons s rest ih =>
    cases s with
    | none =>
      rw [List.foldl_cons]
      rw [ih]
      cases h : objLookup acc k <;> simp [firstDefined, h]
    | some src =>
      rw [List.foldl_cons]
      show objLookup (rest.foldl _ (lodashDefaults acc src)) k = _
      rw [ih (lodashDefaults acc src)]
      rw [objLookup_lodashDefaults]
      cases h : objLookup acc k with
      | some v => simp [firstDefined]
      | none =>
        cases h2 : objLookup src k <;> simp [firstDefined, h2]

/-- C6: on a non-empty compacted candidate list, the merged details of the
reducer's decision keep every key of the winner's own `details` with its
original value, and for each key the winner lacks they hold exactly the
value of the earliest lower-ranked candidate defining that key (`none` when
no candidate defines it — no other key is added). -/
theorem c6_merge_preserves_winner (intents : List (Option Intent))
    (firstIntent : Intent) (rest : List Intent)
    (h : intents.reduceOption = firstIntent :: rest) :
    ∃ d, (defaultReducer intents).details = some d
      ∧ (∀ k v, objLookup (firstIntent.details.getD []) k = some v →
          objLookup d k = some v)
      ∧ (∀ k, objLookup (firstIntent.details.getD []) k = none →
          objLookup d k = firstDefined k (rest.map (fun i => i.details))) := by
  refine ⟨lodashDefaultsAll ((firstIntent :: rest).map (fun i => i.details)), ?_, ?_, ?_⟩
  · simp [defaultReducer, h]
  · intro k v hkv
    have : (firstIntent :: rest).map (fun i => i.details)
        = firstIntent.details :: rest.map (fun i => i.details) := rfl
    rw [this, objLookup_lodashDefaultsAll, hkv]
  · intro k hk
    have : (firstIntent :: rest).map (fun i => i.details)
        = firstIntent.details :: rest.map (fun i => i.details) := rfl
    rw [this, objLookup_lodashDefaultsAll, hk]

/-- C6 witness: merging `[intentA, intentB]` keeps the winner's
`confidence = 1/2` and folds in `intentB`'s `extra` key. -/
theorem c6_witness :
    ∃ d, (defaultReducer [some intentA, some intentB]).details = some d
      ∧ objLookup d "confidence" = some (DVal.num ((1 : ℚ)/2))
      ∧ objLookup d "extra" = some (DVal.str "e") := by
  obtain ⟨d, hd, hpres, habs⟩ :=
    c6_merge_preserves_winner [some intentA, some intentB] intentA [intentB]
      (by simp [List.reduceOption])
  refine ⟨d, hd, ?_, ?_⟩
  · refine hpres "confidence" _ ?_
    simp +decide [intentA, objLookup_cons]
  · have he := habs "extra" (by simp +decide [intentA, objLookup_cons, objLookup_nil])
    rw [he]
    simp +decide [intentB, firstDefined, objLookup_cons]

/-! ### C7 — locations broadcast -/

theorem reduceOption_map_eq_filterMap {α β : Type} (l : List α) (f : α → Option β) :
    (l.map f).reduceOption = l.filterMap f := by
  simp [List.reduceOption, List.filterMap_map]

/-- C7: the `locations` list of one extraction round is the title-cased
labels of the classifications with topic `'locations'`, taken in the order
of the sorted (descending-by-confidence) classification list — and the very
same list is attached to `details.locations` of **every** produced intent,
regardless of that intent's own topic. -/
theorem c7_locations_broadcast (isLR : Bool) (bank : Classifiers) (text : String)
    (intents : List (Option Intent))
    (h : baseBotTextNLP isLR bank text = some intents) :
    (sortedClassifications isLR bank text).Pairwise
        (fun a b => b.value ≤ a.value)
      ∧ (sortedClassifications isLR bank text).Perm
          (compactedClassifications isLR bank text)
      ∧ locationsOf isLR bank text
          = (sortedClassifications isLR bank text).filterMap
              (fun c => if c.topic = "locations" then some (startCase c.label) else none)
      ∧ ∀ oi ∈ intents, ∃ i, oi = some i ∧ ∃ d, i.details = some d
          ∧ objLookup d "locations"
              = some (DVal.strList (locationsOf isLR bank text)) := by
  refine ⟨?_, ?_, ?_, ?_⟩
  · have htrans : ∀ a b c : Classification, clsGE a b → clsGE b c → clsGE a c := by
      intro a b c hab hbc
      simp only [clsGE, decide_eq_true_eq] at *
      exact le_trans hbc hab
    have htotal : ∀ a b : Classification, clsGE a b || clsGE b a := by
      intro a b
      simp only [clsGE, Bool.or_eq_true, decide_eq_true_eq]
      exact le_total b.value a.value
    rw [sortedClassifications]
    refine List.Pairwise.imp ?_
      (List.sorted_mergeSort htrans htotal (compactedClassifications isLR bank text))
    intro a b hab
    simpa [clsGE] using hab
  · rw [sortedClassifications]
    exact List.mergeSort_perm _ clsGE
  · rw [locationsOf]
    exact reduceOption_map_eq_filterMap _ _
  · intro oi hoi
    by_cases hlen : (compactedClassifications isLR bank text).length = 0
    · simp [baseBotTextNLP, hlen] at h
    · rw [baseBotTextNLP] at h
      simp only [if_neg hlen, Option.some_inj] at h
      rw [← h] at hoi
      obtain ⟨c, _, hoc⟩ := List.mem_map.mp hoi
      refine ⟨classificationToIntent (locationsOf isLR bank text) c, hoc.symm,
        [("confidence", DVal.num c.value),
          ("locations", DVal.strList (locationsOf isLR bank text))],
        classificationToIntent_details _ c, ?_⟩
      simp +decide [objLookup_cons]

/-- A bank with a `locations` topic (one hit, one `'false'` miss) and a
second topic, for the C7 witness. -/
def locBank : Classifiers :=
  [ ("locations", [("new-york", fun _ => ⟨"new-york", (9 : ℚ)/10⟩),
                   ("paris", fun _ => ⟨"false", (1 : ℚ)/2⟩)]),
    ("greet", [("say-hi", fun _ => ⟨"say-hi", (7 : ℚ)/10⟩)]) ]

/-- The `locations`-topic intent `locBank` produces. -/
def nyIntent : Intent :=
  { action := some "new york", topic := some "locations",
    details := some [("confidence", DVal.num ((9 : ℚ)/10)),
                     ("locations", DVal.strList ["New York"])] }

/-- The `greet`-topic intent `locBank` produces; it carries the same
`locations` list even though its own topic is not `locations`. -/
def hiIntent : Intent :=
  { action := some "say hi", topic := some "greet",
    details := some [("confidence", DVal.num ((7 : ℚ)/10)),
                     ("locations", DVal.strList ["New York"])] }

/-- C7 witness on `locBank`: the extraction yields the two intents in
descending-confidence order, `locations = ['New York']`, and the
non-`locations` intent carries the same list. -/
theorem c7_witness :
    baseBotTextNLP true locBank "hi" = some [some nyIntent, some hiIntent]
      ∧ locationsOf true locBank "hi" = ["New York"]
      ∧ objLookup (hiIntent.details.getD []) "locations"
          = some (DVal.strList ["New York"]) := by
  have hq1 : ((6 : ℚ)/10 < 9/10) := by norm_num
  have hq2 : ((6 : ℚ)/10 < 7/10) := by norm_num
  have hq3 : ((7 : ℚ)/10 ≤ 9/10) := by norm_num
  have hcomp : compactedClassifications true locBank "hi"
      = [⟨"new york", "locations", (9 : ℚ)/10⟩, ⟨"say hi", "greet", (7 : ℚ)/10⟩] := by
    simp +decide [compactedClassifications, collectClassifications, applyThreshold,
      checkUsingClassifier, locBank, jsReplaceHyphen, replaceFirstChar,
      decide_eq_true hq1, decide_eq_true hq2]
  have hsorted : sortedClassifications true locBank "hi"
      = [⟨"new york", "locations", (9 : ℚ)/10⟩, ⟨"say hi", "greet", (7 : ℚ)/10⟩] := by
    rw [sortedClassifications, hcomp]
    simp +decide [List.mergeSort, List.merge, List.splitInTwo, clsGE,
      decide_eq_true hq3]
  have hloc : locationsOf true locBank "hi" = ["New York"] := by
    rw [locationsOf, hsorted]
    decide
  have h : baseBotTextNLP true locBank "hi" = some [some nyIntent, some hiIntent] := by
    rw [baseBotTextNLP]
    simp only [hcomp, hsorted, hloc, List.length_cons, List.length_nil]
    simp +decide [nyIntent, hiIntent, classificationToIntent, objSet, objHas]
  refine ⟨h, hloc, ?_⟩
  have hforall := (c7_locations_broadcast true locBank "hi" _ h).2.2.2
  obtain ⟨i, hi, d, hd, hlook⟩ := hforall (some hiIntent) (by simp)
  have hii : hiIntent = i := by simpa using hi
  rw [hii, hd]
  simpa [hloc] using hlook

/-! ### C8 / C10 — the no-match sentinel -/

/-- C8: when the flattened-and-compacted candidate list contains no valid
intent at all, `processText` with the default reducer completes normally
(the embedding is total — no failure path is taken) and sets `user.intent`
to the sentinel unknown intent, whose action is `'none'` and topic `null`. -/
theorem c8_no_match_sentinel (bot : ChatBot) (user : User) (text : String)
    (hr : bot.reducer = fun l _ => defaultReducer l)
    (h : (candidateIntents bot user text).reduceOption = []) :
    (processText bot user text).intent = unknownIntent
      ∧ unknownIntent.action = some "none" ∧ unknownIntent.topic = none := by
  refine ⟨?_, rfl, rfl⟩
  simp [processText, hr, defaultReducer, h]

/-- A bot whose single extractor returns `null`, with the default reducer;
used by the C8 and C10 witnesses. -/
def nullBot : ChatBot :=
  { classifiers := [], intents := [fun _ _ => none], skills := [],
    reducer := fun l _ => defaultReducer l, debugOn := false }

/-- C8 witness: a no-match `processText` run on a concrete bot and user. -/
theorem c8_witness :
    (processText nullBot sampleUser "hello").intent = unknownIntent :=
  (c8_no_match_sentinel nullBot sampleUser "hello" rfl rfl).1

/-- C10: the sentinel returned on an empty candidate list has **no**
`details` field at all (`undefined`), unlike `createEmptyIntent` whose
`details` is the empty object — so after a no-match `processText` call,
`user.intent.details` is `undefined`. -/
theorem c10_sentinel_details (bot : ChatBot) (user : User) (text : String)
    (hr : bot.reducer = fun l _ => defaultReducer l)
    (h : (candidateIntents bot user text).reduceOption = []) :
    (processText bot user text).intent.details = none
      ∧ (defaultReducer []).details = none
      ∧ createEmptyIntent.details = some []
      ∧ some ([] : Details) ≠ (none : Option Details) := by
  refine ⟨?_, rfl, rfl, by decide⟩
  simp [processText, hr, defaultReducer, h, unknownIntent]

/-- C10 witness: after the same concrete no-match run, the decided intent
carries no details. -/
theorem c10_witness :
    (processText nullBot sampleUser "hello").intent.details = none :=
  (c10_sentinel_details nullBot sampleUser "hello" rfl rfl).1

/-! ### C9 — retrain frame -/

/-- C9: `retrainClassifiers` reassigns only the `classifiers` field; the
registered intent-extractor list, skill list, reducer and debug flag are all
unchanged, and the new bank is generated from the supplied files plus the
default classifier directories. -/
theorem c9_retrain_frame (generateClassifier : List String → Classifiers)
    (bot : ChatBot) (classifierFiles : List String) :
    (retrainClassifiers generateClassifier bot classifierFiles).intents = bot.intents
      ∧ (retrainClassifiers generateClassifier bot classifierFiles).skills = bot.skills
      ∧ (retrainClassifiers generateClassifier bot classifierFiles).reducer = bot.reducer
      ∧ (retrainClassifiers generateClassifier bot classifierFiles).debugOn = bot.debugOn
      ∧ (retrainClassifiers generateClassifier bot classifierFiles).classifiers
          = generateClassifier (classifierFiles ++ defaultClassifierDirectories) :=
  ⟨rfl, rfl, rfl, rfl, rfl⟩

end BotFramework
